import Mathlib

/-!
# Verification of `vtkreader.py` (dionhaefner/python-vtkreader)

Shallow embedding of the VTK XML reader: the raw-segment patching
`VTKXMLParser.feed`, and the semantic decoder `VTKTreeBuilder`
(`start`/`data`/`end` callbacks, `handle_data_array`,
`handle_appended_data`), together with the pieces of the Python 2
standard library and numpy that the source calls into
(`base64.b64encode`/`b64decode`, `struct.pack`/`unpack_from`/`calcsize`,
`np.fromstring`, `ndarray.reshape`).

Strings and byte strings are modelled as `List Nat` of character/byte
codes (Python 2 `str` is a byte string, so text and binary data share one
representation, exactly as in the source).  Numeric array elements are
represented by their fixed-width bit patterns (a `Nat` below
`256 ^ elementSize`); for integer kinds this is the two's-complement
pattern of the stored value and for float kinds the IEEE bit pattern.
Equality of decoded arrays is equality of bit-pattern lists, which
coincides with equality of the stored numpy buffers.  IEEE float *value*
semantics are never needed by the properties below and are not modelled:
`struct` reads of float-kind headers return the raw pattern (documented at
`toSignedInt`), and no theorem exercises a float-kind header or a float
ascii parse.
-/

namespace VTK

/-- Python whitespace (`str.strip`, `\s` in `re`): space, TAB, LF, CR, VT, FF. -/
def isPySpace (c : Nat) : Bool :=
  c == 32 || c == 9 || c == 10 || c == 13 || c == 11 || c == 12

/-- Python `str.strip()`: drop leading and trailing whitespace. -/
def pyStrip (xs : List Nat) : List Nat :=
  ((xs.dropWhile isPySpace).reverse.dropWhile isPySpace).reverse

/-- Lookup in an association list, modelling Python `dict` access for the
attribute dicts and the class-level tables of the source (all of which
have distinct keys). -/
def alookup (xs : List (String × String)) (k : String) : Option String :=
  match xs with
  | [] => none
  | (k', v) :: rest => if k = k' then some v else alookup rest k

/-- Byte codes of an ASCII string literal. -/
def strBytes (s : String) : List Nat :=
  s.data.map Char.toNat

/-! ## base64 (Python 2 `base64.b64encode` / `b64decode`) -/

/-- The base64 alphabet: sextet value to ASCII code. -/
def b64Char (s : Nat) : Nat :=
  if s < 26 then 65 + s
  else if s < 52 then 71 + s
  else if s < 62 then s - 4
  else if s = 62 then 43
  else 47

/-- ASCII code back to sextet value; `none` off the alphabet. -/
def b64CharInv (c : Nat) : Option Nat :=
  if 65 ≤ c ∧ c ≤ 90 then some (c - 65)
  else if 97 ≤ c ∧ c ≤ 122 then some (c - 71)
  else if 48 ≤ c ∧ c ≤ 57 then some (c + 4)
  else if c = 43 then some 62
  else if c = 47 then some 63
  else none

def isB64Char (c : Nat) : Bool := (b64CharInv c).isSome

/-- Python `base64.b64encode`: 3-byte groups to 4 alphabet chars, a 2-byte tail
to 3 chars and `=`, a 1-byte tail to 2 chars and `==`  (61 is `'='`). -/
def b64encode : List Nat → List Nat
  | b1 :: b2 :: b3 :: rest =>
      b64Char (b1 / 4) :: b64Char ((b1 % 4) * 16 + b2 / 16) ::
      b64Char ((b2 % 16) * 4 + b3 / 64) :: b64Char (b3 % 64) :: b64encode rest
  | [b1, b2] =>
      [b64Char (b1 / 4), b64Char ((b1 % 4) * 16 + b2 / 16), b64Char ((b2 % 16) * 4), 61]
  | [b1] =>
      [b64Char (b1 / 4), b64Char ((b1 % 4) * 16), 61, 61]
  | [] => []

/-- Decode filtered 4-char groups; a padded group must be final, as it is
in every string the source ever decodes. -/
def b64decodeGroups : List Nat → Option (List Nat)
  | [] => some []
  | c1 :: c2 :: c3 :: c4 :: rest => do
      let d1 ← b64CharInv c1
      let d2 ← b64CharInv c2
      if c4 = 61 then
        if rest ≠ [] then none
        else if c3 = 61 then
          some [d1 * 4 + d2 / 16]
        else do
          let d3 ← b64CharInv c3
          some [d1 * 4 + d2 / 16, (d2 % 16) * 16 + d3 / 4]
      else do
        let d3 ← b64CharInv c3
        let d4 ← b64CharInv c4
        let tl ← b64decodeGroups rest
        some ((d1 * 4 + d2 / 16) :: ((d2 % 16) * 16 + d3 / 4) :: ((d3 % 4) * 64 + d4) :: tl)
  | _ => none

/-- Python `base64.b64decode` (via `binascii.a2b_base64`): characters outside
the alphabet and `=` are discarded, then the length must be a multiple
of 4; failure is `binascii.Error`. -/
def b64decode (cs : List Nat) : Option (List Nat) :=
  if (cs.filter (fun c => isB64Char c || c == 61)).length % 4 = 0 then
    b64decodeGroups (cs.filter (fun c => isB64Char c || c == 61))
  else none

/-! ## `struct` and byte serialisation -/

inductive ByteOrder where
  | little
  | big
deriving DecidableEq, Repr

/-- The source stores the byte order as the `struct` prefix character
`"<"` or `">"` (from the `byteorders` table). -/
def boOf (s : String) : ByteOrder :=
  if s = ">" then .big else .little

/-- Python `struct.calcsize` of one buffer code. -/
def calcsize1 (c : String) : Nat :=
  if c = "b" ∨ c = "B" then 1
  else if c = "h" ∨ c = "H" then 2
  else if c = "i" ∨ c = "I" ∨ c = "f" then 4
  else if c = "q" ∨ c = "Q" ∨ c = "d" then 8
  else 0

def isSignedCode (c : String) : Bool :=
  c == "b" || c == "h" || c == "i" || c == "q"

/-- Little-endian bytes of `v`, `w` of them. -/
def natToBytesLE : Nat → Nat → List Nat
  | 0, _ => []
  | w + 1, v => v % 256 :: natToBytesLE w (v / 256)

/-- Value of little-endian bytes. -/
def natFromBytesLE : List Nat → Nat
  | [] => 0
  | b :: rest => b % 256 + 256 * natFromBytesLE rest

def natToBytes (bo : ByteOrder) (w v : Nat) : List Nat :=
  match bo with
  | .little => natToBytesLE w v
  | .big => (natToBytesLE w v).reverse

def natFromBytes (bo : ByteOrder) (bs : List Nat) : Nat :=
  match bo with
  | .little => natFromBytesLE bs
  | .big => natFromBytesLE bs.reverse

/-- Python `struct.pack(byteorder ++ code, v)` for a non-negative in-range `v`
(the source only ever packs `0`; the round-trip encoders below pack byte
lengths). -/
def structPackNat (boS : String) (code : String) (v : Nat) : List Nat :=
  natToBytes (boOf boS) (calcsize1 code) v

/-- Two's-complement reading of a `w`-byte unsigned pattern under buffer
code `c`.  For the float codes `"f"`/`"d"` the IEEE reinterpretation is
not modelled and the raw pattern is returned; no header in any theorem
below uses a float code. -/
def toSignedInt (c : String) (w raw : Nat) : Int :=
  if isSignedCode c ∧ 256 ^ w ≤ 2 * raw then (raw : Int) - (256 : Int) ^ w else (raw : Int)

/-- Python `struct.unpack_from(byteorder ++ code, bs, offset)[0]`; `none` is
`struct.error` (buffer too small for one item at `offset`). -/
def structUnpackFrom (boS : String) (code : String) (bs : List Nat) (offset : Int) :
    Option Int :=
  if offset < 0 then none
  else if offset.toNat + calcsize1 code ≤ bs.length then
    some (toSignedInt code (calcsize1 code)
      (natFromBytes (boOf boS) ((bs.drop offset.toNat).take (calcsize1 code))))
  else none

/-! ## numpy -/

/-- Read `k` consecutive elements of `es` bytes each. -/
def readElems (bo : ByteOrder) (es : Nat) : List Nat → Nat → List Nat
  | _, 0 => []
  | bs, k + 1 => natFromBytes bo (bs.take es) :: readElems bo es (bs.drop es) k

/-- Model of `np.fromstring(bytes, dtype, count)` in binary mode.  `dtype` carries
an explicit byte-order prefix in `handle_data_array` but not in
`handle_appended_data`, so the byte order is a parameter here.  A
negative `count` reads everything (`ValueError` unless the length is a
multiple of the element size); a non-negative `count` needs that many
whole elements (`ValueError` otherwise, surplus bytes ignored). -/
def npFromstringBinary (bo : ByteOrder) (es : Nat) (bs : List Nat) (count : Int) :
    Option (List Nat) :=
  if es = 0 then none
  else if count < 0 then
    if bs.length % es = 0 then some (readElems bo es bs (bs.length / es)) else none
  else if count.toNat * es ≤ bs.length then some (readElems bo es bs count.toNat)
  else none

/-- Python `int(...)` on a string: optional surrounding whitespace, an
optional sign, then at least one digit; `none` is `ValueError`. -/
def pyInt (s : String) : Option Int :=
  let cs := pyStrip (strBytes s)
  let (neg, ds) :=
    match cs with
    | 45 :: rest => (true, rest)
    | 43 :: rest => (false, rest)
    | _ => (false, cs)
  if ds = [] ∨ ¬ ds.all (fun c => 48 ≤ c && c ≤ 57) then none
  else
    let v : Nat := ds.foldl (fun a c => a * 10 + (c - 48)) 0
    some (if neg then -(v : Int) else (v : Int))

/-- Model of `np.fromstring(text, dtype, sep=' ')`: whitespace-separated numeric
literals; an element that fails to parse stops the read, so the empty
string yields the empty array (numpy 1.x text mode).  Only integer
literals are modelled; no claim ascii-decodes an array (the one exercised
input is the empty accumulated text of an appended `DataArray`). -/
def npFromstringText (es : Nat) (txt : List Nat) : List Nat :=
  let toks := (txt.splitOnP isPySpace).filter (· ≠ [])
  let vals := toks.map (fun t =>
    if t.all (fun c => 48 ≤ c && c ≤ 57) then
      some ((t.foldl (fun a c => a * 10 + (c - 48)) 0) % 256 ^ es)
    else none)
  (vals.takeWhile Option.isSome).filterMap id

/-- Rows of `c` elements, in row-major order (`ndarray.reshape(-1, c)`). -/
def listChunks (xs : List Nat) (c : Nat) : List (List Nat) :=
  if h : c = 0 ∨ xs = [] then []
  else xs.take c :: listChunks (xs.drop c) c
termination_by xs.length
decreasing_by
  rw [not_or] at h
  have h1 : 0 < xs.length := List.length_pos.mpr h.2
  have h2 : 0 < c := Nat.pos_of_ne_zero h.1
  simp only [List.length_drop]
  omega

/-- Model of `arr.reshape(-1, c)`: `ValueError` unless `c` divides the length. -/
def npReshape (xs : List Nat) (c : Nat) : Option (List (List Nat)) :=
  if c ≠ 0 ∧ xs.length % c = 0 then some (listChunks xs c) else none

/-- Byte order numpy uses for a dtype without an explicit `<`/`>` prefix:
the machine's native order, little-endian on the x86 hosts this code runs
on.  `handle_appended_data` builds its dtype without a prefix. -/
def nativeByteOrder : ByteOrder := .little

/-! ## The raw-segment patcher: `VTKXMLParser`

`VTKXMLParser.feed` patches raw appended data before the generic expat
tokenizer sees it.  Its three class-level regexes are

* `raw_start_pattern = <AppendedData encoding="raw">_`  (a literal),
* `raw_end_pattern   = </AppendedData>`                 (a literal),
* `raw_sub_pattern   = (?<=<AppendedData encoding="raw">)\s*_(.*)\s*(?=</AppendedData>)`.

The first two are modelled as substring searches.  The third is modelled
by `rawFindFrom`: a scan over match-start positions that checks the
lookbehind literal, takes the maximal whitespace run followed by `_`,
and then—because the greedy `(.*)` cannot cross a newline while the
trailing `\s*` can—captures up to the furthest `</AppendedData>`
occurrence whose prefix is newline-free, with only whitespace between
capture end and that occurrence. -/

def rawStartTagBytes : List Nat := strBytes "<AppendedData encoding=\"raw\">"

def rawStartPatBytes : List Nat := strBytes "<AppendedData encoding=\"raw\">_"

def rawEndTagBytes : List Nat := strBytes "</AppendedData>"

def beginsWith (p s : List Nat) : Bool :=
  match p, s with
  | [], _ => true
  | _ :: _, [] => false
  | a :: p', b :: s' => a == b && beginsWith p' s'

/-- Model of `pattern.search(s)` for a literal pattern: is it a substring? -/
def containsSub (pat s : List Nat) : Bool :=
  (List.range (s.length + 1)).any (fun i => beginsWith pat (s.drop i))

/-- Length of the maximal leading whitespace run. -/
def wsRun (s : List Nat) : Nat := (s.takeWhile isPySpace).length

/-- Index of the first newline, or the length if there is none. -/
def firstNL (s : List Nat) : Nat := (s.takeWhile (fun c => c ≠ 10)).length

/-- For the sub-pattern's `(.*)\s*(?=</AppendedData>)` applied to the
text following `_`: the capture length and end-tag position chosen by
the greedy engine, if any occurrence of the end tag is reachable. -/
def bestEnd (rest : List Nat) : Option (Nat × Nat) :=
  (List.range (rest.length + 1)).foldl
    (fun acc r =>
      if beginsWith rawEndTagBytes (rest.drop r) then
        let j := min r (firstNL rest)
        if ((rest.drop j).take (r - j)).all isPySpace then
          match acc with
          | none => some (j, r)
          | some (j', r') => if j' < j ∨ (j' = j ∧ r' < r) then some (j, r) else some (j', r')
        else acc
      else acc)
    none

/-- Scan for the first match of `raw_sub_pattern` at a match-start
position `≥ p` (the match starts right after the lookbehind literal).
Returns (match start, match end, captured group). -/
def rawFindFrom (s : List Nat) : Nat → Nat → Option (Nat × Nat × List Nat)
  | _, 0 => none
  | p, fuel + 1 =>
    if p > s.length then none
    else
      let cand :=
        if rawStartTagBytes.length ≤ p ∧
            beginsWith rawStartTagBytes (s.drop (p - rawStartTagBytes.length)) then
          let w := wsRun (s.drop p)
          if (s.drop (p + w)).head? = some 95 then
            let u := p + w + 1
            match bestEnd (s.drop u) with
            | some (j, r) => some (p, u + r, (s.drop u).take j)
            | none => none
          else none
        else none
      match cand with
      | some m => some m
      | none => rawFindFrom s (p + 1) fuel

/-- Model of `raw_sub_pattern.search(s)`. -/
def rawSubSearch (s : List Nat) : Bool :=
  (rawFindFrom s 0 (s.length + 1)).isSome

/-- All-occurrence substitution from position `pos`, replacing each
matched span by the base64 encoding of its captured group, exactly as
`raw_sub_pattern.sub(lambda x: base64.b64encode(x.group(1)), s)`. -/
def rawSubAux (s : List Nat) : Nat → Nat → List Nat
  | pos, 0 => s.drop pos
  | pos, fuel + 1 =>
    match rawFindFrom s pos (s.length + 1) with
    | none => s.drop pos
    | some (p, e, cap) =>
        ((s.drop pos).take (p - pos)) ++ b64encode cap ++ rawSubAux s e fuel

def rawSub (s : List Nat) : List Nat := rawSubAux s 0 (s.length + 1)

/-- The patcher's transient state: the "inside an unterminated raw
section" flag and the accumulation buffer. -/
structure PState where
  incomplete_raw_tag : Bool
  raw_data : List Nat
deriving DecidableEq, Repr

def PState.init : PState := ⟨false, []⟩

/-- Model of `VTKXMLParser.feed(data)`.  Returns the successor state and the
chunk forwarded to the underlying expat parser, if any. -/
def feed (st : PState) (data : List Nat) : PState × Option (List Nat) :=
  let st :=
    if containsSub rawStartPatBytes data ∧ ¬ containsSub rawEndTagBytes data then
      { st with incomplete_raw_tag := true }
    else st
  if st.incomplete_raw_tag then
    let rd := st.raw_data ++ data
    if rawSubSearch rd then
      (⟨false, []⟩, some (rawSub rd))
    else ({ st with raw_data := rd }, none)
  else (st, some (rawSub data))

/-- Feed a list of chunks in order; collect the concatenation of
everything forwarded to the tokenizer. -/
def feedForward (chunks : List (List Nat)) : List Nat :=
  (chunks.foldl
    (fun acc c =>
      let (st', out) := feed acc.1 c
      (st', acc.2 ++ (out.getD [])))
    (PState.init, [])).2

/-! ## The semantic decoder: `VTKTreeBuilder`

Exceptions are modelled by an error type with one constructor per raise
site (Python exception class and message):

* `missingVersion`, `unknownByteorder` — the two `ValueError`s of the
  `VTKFile` branch of `start` (the spec's `ConfigurationError`);
* `badFormat` — the `ValueError` of the `DataArray` branch of `start`
  (the spec's `FormatError`);
* `keyError k` — an uncaught `KeyError` from a `dict[...]` access
  (including the one raised *inside* the `Unknown byteorder` handler
  while formatting its message, when `byte_order` is absent);
* `attributeError n` — reading an instance attribute never assigned
  (e.g. `self.byteorder` before any `VTKFile` tag);
* `unboundLocal n` — `UnboundLocalError`: a function-local variable read
  before assignment;
* `structError` — `struct.error` from `unpack_from`;
* `binasciiError` — `binascii.Error` from `b64decode`;
* `npValueError` — numpy `ValueError` from `fromstring` (buffer too
  small / not a multiple of the element size), the spec's `OffsetError`
  together with `structError`;
* `reshapeError` — numpy `ValueError` from `reshape(-1, n)` (the spec's
  `ShapeError`);
* `intParseError` — `ValueError` from `int(...)` on a non-numeric string.
-/

inductive Err where
  | missingVersion
  | unknownByteorder (v : String)
  | badFormat (v : String)
  | keyError (k : String)
  | attributeError (n : String)
  | unboundLocal (n : String)
  | structError
  | binasciiError
  | npValueError
  | reshapeError
  | intParseError (s : String)
deriving DecidableEq, Repr

/-- What `elem.text` holds after a decode: a flat typed array or one
reshaped into rows (`NumberOfComponents` columns). -/
inductive Payload where
  | flat (xs : List Nat)
  | shaped (rows : List (List Nat))
deriving DecidableEq, Repr

/-- A tree element as the decoder sees it: tag and attribute dict.  The
tree linking done by the base `ET.TreeBuilder` is the external
collaborator's concern; elements are identified by creation index. -/
structure Elem where
  tag : String
  attrib : List (String × String)
deriving DecidableEq, Repr

/-- The `VTKTreeBuilder` instance state.  `Option` fields are instance
attributes that Python creates on first assignment (reading them before
that raises `AttributeError`).  `writes` is the ordered log of every
`elem.text = ...` assignment the decoder performs, newest last; an
element's final payload is its last logged write. -/
structure BState where
  elems : List Elem
  elem : Option Nat
  array_data : List Nat
  split_header : Option Bool
  byteorder : Option String
  header_type : Option String
  appended_data_arrays : List (Int × String × Nat)
  writes : List (Nat × Payload)
deriving DecidableEq, Repr

def BState.initial : BState :=
  { elems := [], elem := none, array_data := [], split_header := none,
    byteorder := none, header_type := none, appended_data_arrays := [], writes := [] }

/-- The class-level `buffers` table: VTK type name to `struct` code. -/
def buffers : List (String × String) :=
  [("Int8", "b"), ("UInt8", "B"), ("Int16", "h"), ("UInt16", "H"),
   ("Int32", "i"), ("UInt32", "I"), ("Int64", "q"), ("UInt64", "Q"),
   ("Float32", "f"), ("Float64", "d")]

/-- The class-level `byteorders` table. -/
def byteorders : List (String × String) :=
  [("LittleEndian", "<"), ("BigEndian", ">")]

def ofOption (e : Err) : Option α → Except Err α
  | some a => .ok a
  | none => .error e

namespace VTKTreeBuilder

/-- Model of `VTKTreeBuilder.start(tag, attrib)`.  Creates the element, resets
the text accumulator, then dispatches on the tag exactly as the source:
`VTKFile` reads `version` (else `ValueError`), `byte_order` (an absent
key escapes as `KeyError` out of the handler that formats the
`Unknown byteorder` message; a present unrecognised value is that
`ValueError`), and `header_type` (any `KeyError` — absent attribute or
unknown name — falls back to `"I"`); `DataArray` first queues an
appended registration when `format == "appended"` and then validates
`format`, raising `ValueError` when it is none of binary/ascii/appended. -/
def start (tag : String) (attrib : List (String × String)) (st : BState) :
    Except Err BState :=
  let eid := st.elems.length
  let st' := { st with elems := st.elems ++ [⟨tag, attrib⟩], elem := some eid,
                       array_data := ([] : List Nat) }
  if tag = "VTKFile" then
    match alookup attrib "version" with
    | none => .error .missingVersion
    | some ver =>
      match alookup attrib "byte_order" with
      | none => .error (.keyError "byte_order")
      | some boName =>
        match alookup byteorders boName with
        | none => .error (.unknownByteorder boName)
        | some boS =>
          let ht : String :=
            match alookup attrib "header_type" with
            | some name =>
              match alookup buffers name with
              | some code => code
              | none => "I"
            | none => "I"
          .ok { st' with split_header := some (ver == "0.1"), byteorder := some boS,
                         header_type := some ht }
  else if tag = "DataArray" then
    match alookup attrib "format" with
    | none => .error (.keyError "format")
    | some fmt =>
      let queued : Except Err BState :=
        if fmt = "appended" then
          match alookup attrib "offset" with
          | none => .error (.keyError "offset")
          | some offS =>
            match pyInt offS with
            | none => .error (.intParseError offS)
            | some off =>
              match alookup attrib "type" with
              | none => .error (.keyError "type")
              | some ty =>
                .ok { st' with appended_data_arrays :=
                        st.appended_data_arrays ++ [(off, ty, eid)] }
        else .ok st'
      match queued with
      | .error e => .error e
      | .ok st'' =>
        if fmt ≠ "binary" ∧ fmt ≠ "ascii" ∧ fmt ≠ "appended" then
          .error (.badFormat fmt)
        else .ok st''
  else .ok st'

/-- Model of `VTKTreeBuilder.data(data)`: accumulate text only while the most
recently started element (the source's `self.elem`, which `end` does not
update) is a `DataArray` or `AppendedData`. -/
def data (txt : List Nat) (st : BState) : Except Err BState := do
  let eid ← ofOption (.attributeError "elem") st.elem
  let e ← ofOption (.attributeError "elem") st.elems[eid]?
  if e.tag = "DataArray" ∨ e.tag = "AppendedData" then
    return { st with array_data := st.array_data ++ txt }
  else
    return st

/-- Model of `VTKTreeBuilder.handle_data_array`, run on every `DataArray` end
event.  The binary branch computes the base64 length of one packed
header, reads the length value out of the first that many characters,
and then splits on the header layout; the version-"1.0" (combined)
branch of the source reads the function-local name `array_data` before
any assignment to it, which raises `UnboundLocalError`.  Every non-binary
format — ascii *and* appended — takes the text-mode `np.fromstring`
branch and ends with an `elem.text` assignment. -/
def handle_data_array (st : BState) : Except Err BState := do
  let eid ← ofOption (.attributeError "elem") st.elem
  let e ← ofOption (.attributeError "elem") st.elems[eid]?
  let boS ← ofOption (.attributeError "byteorder") st.byteorder
  let tyName ← ofOption (.keyError "type") (alookup e.attrib "type")
  let code ← ofOption (.keyError tyName) (alookup buffers tyName)
  let es := calcsize1 code
  let fmt ← ofOption (.keyError "format") (alookup e.attrib "format")
  let arr ←
    if fmt = "binary" then do
      let input_data := pyStrip st.array_data
      let ht ← ofOption (.attributeError "header_type") st.header_type
      let header_size := (b64encode (structPackNat boS ht 0)).length
      let hdrBytes ← ofOption .binasciiError (b64decode (input_data.take header_size))
      let data_len ← ofOption .structError (structUnpackFrom boS ht hdrBytes 0)
      let split ← ofOption (.attributeError "split_header") st.split_header
      if split then do
        let data_content ← ofOption .binasciiError (b64decode (input_data.drop header_size))
        let data_bytelen : Int := data_len.fdiv (es : Int)
        ofOption .npValueError (npFromstringBinary (boOf boS) es data_content data_bytelen)
      else
        throw (.unboundLocal "array_data")
    else
      pure (npFromstringText es st.array_data)
  let ncomp : Int ←
    match alookup e.attrib "NumberOfComponents" with
    | none => pure 0
    | some s => if s = "" then pure 0 else ofOption (.intParseError s) (pyInt s)
  let payload ←
    if 1 < ncomp then do
      let rows ← ofOption .reshapeError (npReshape arr ncomp.toNat)
      pure (Payload.shaped rows)
    else
      pure (Payload.flat arr)
  return { st with writes := st.writes ++ [(eid, payload)] }

/-- The body of the registration loop of `handle_appended_data`: read a
header-width length at `offset` with the *document* byte order, divide
by the element size, and read that many elements starting right after
the header — with a dtype that carries no byte-order prefix, hence in
the machine's *native* order. -/
def resolveRegistration (boS ht : String) (raw : List Nat) (offset : Int)
    (dtype : String) : Except Err (List Nat) := do
  let datalen ← ofOption .structError (structUnpackFrom boS ht raw offset)
  let code ← ofOption (.keyError dtype) (alookup buffers dtype)
  let es := calcsize1 code
  let data_bytelen : Int := datalen.fdiv (es : Int)
  let hs := calcsize1 ht
  ofOption .npValueError
    (npFromstringBinary nativeByteOrder es (raw.drop (offset + hs).toNat) data_bytelen)

/-- Modelled from the spec (§4.4), for comparison with the code: the
same per-registration read but with the elements read using the
*document* endianness, as the specification states. -/
def resolveRegistrationSpec (boS ht : String) (raw : List Nat) (offset : Int)
    (dtype : String) : Except Err (List Nat) := do
  let datalen ← ofOption .structError (structUnpackFrom boS ht raw offset)
  let code ← ofOption (.keyError dtype) (alookup buffers dtype)
  let es := calcsize1 code
  let data_bytelen : Int := datalen.fdiv (es : Int)
  let hs := calcsize1 ht
  ofOption .npValueError
    (npFromstringBinary (boOf boS) es (raw.drop (offset + hs).toNat) data_bytelen)

/-- Model of `VTKTreeBuilder.handle_appended_data`: decode the accumulated base64
text into the single blob, then drain the registration queue in order,
assigning each result to its owner element's text. -/
def handle_appended_data (st : BState) : Except Err BState := do
  let raw ← ofOption .binasciiError (b64decode st.array_data)
  let boS ← ofOption (.attributeError "byteorder") st.byteorder
  let ht ← ofOption (.attributeError "header_type") st.header_type
  st.appended_data_arrays.foldlM
    (fun st reg => do
      let (offset, dtype, eid) := reg
      let arr ← resolveRegistration boS ht raw offset dtype
      pure { st with writes := st.writes ++ [(eid, Payload.flat arr)] })
    st

/-- Model of `VTKTreeBuilder.end(tag)`: run the decode hooks, then clear the text
accumulator (the base builder's stack pop is the collaborator's
concern). -/
def endEvent (tag : String) (st : BState) : Except Err BState := do
  let st ←
    if tag = "DataArray" then handle_data_array st
    else if tag = "AppendedData" then handle_appended_data st
    else pure st
  return { st with array_data := [] }

end VTKTreeBuilder

/-- One structural-builder callback event. -/
inductive Event where
  | start (tag : String) (attrib : List (String × String))
  | data (txt : List Nat)
  | endEv (tag : String)

/-- Run a callback event sequence against a fresh builder. -/
def runTrace (evs : List Event) : Except Err BState :=
  evs.foldlM
    (fun st ev =>
      match ev with
      | .start t a => VTKTreeBuilder.start t a st
      | .data s => VTKTreeBuilder.data s st
      | .endEv t => VTKTreeBuilder.endEvent t st)
    BState.initial

/-- A builder state as it stands when a lone binary `DataArray` element
closes: the element is open with the given type attribute, the document
parameters are set, and the accumulated text is `txt`. -/
def mkBinState (split : Bool) (boS htCode tyName : String) (txt : List Nat) : BState :=
  { elems := [⟨"DataArray", [("type", tyName), ("format", "binary")]⟩],
    elem := some 0, array_data := txt, split_header := some split,
    byteorder := some boS, header_type := some htCode,
    appended_data_arrays := [], writes := [] }

/-- The two claimed round-trip encoders (spec §8), written from the
spec's words.  `rawBytesOf` is the raw byte string of an array of
bit-patterns of element-size `calcsize1 code` under the document byte
order. -/
def rawBytesOf (boS code : String) (A : List Nat) : List Nat :=
  (A.map (structPackNat boS code)).flatten

/-- Spec §8 split layout (version "0.1"): header and content base64
encoded separately and concatenated. -/
def splitEncode (boS htCode code : String) (A : List Nat) : List Nat :=
  b64encode (structPackNat boS htCode (A.length * calcsize1 code)) ++
    b64encode (rawBytesOf boS code A)

/-- Spec §8 combined layout (version "1.0"+): header and content base64
encoded together. -/
def combinedEncode (boS htCode code : String) (A : List Nat) : List Nat :=
  b64encode (structPackNat boS htCode (A.length * calcsize1 code) ++ rawBytesOf boS code A)

/-! ## Infrastructure lemmas -/

theorem b64CharInv_b64Char {d : Nat} (h : d < 64) : b64CharInv (b64Char d) = some d := by
  have H : ∀ d : Fin 64, b64CharInv (b64Char d.val) = some d.val := by decide
  exact H ⟨d, h⟩

theorem b64Char_ne_pad {d : Nat} (h : d < 64) : b64Char d ≠ 61 := by
  have H : ∀ d : Fin 64, b64Char d.val ≠ 61 := by decide
  exact H ⟨d, h⟩

theorem isB64Char_b64Char {d : Nat} (h : d < 64) : isB64Char (b64Char d) = true := by
  have H : ∀ d : Fin 64, isB64Char (b64Char d.val) = true := by decide
  exact H ⟨d, h⟩

theorem b64Char_not_space {d : Nat} (h : d < 64) : isPySpace (b64Char d) = false := by
  have H : ∀ d : Fin 64, isPySpace (b64Char d.val) = false := by decide
  exact H ⟨d, h⟩

theorem pad_not_space : isPySpace 61 = false := by decide

/-- Every character emitted by `b64encode` on a byte string is an
alphabet character or padding. -/
theorem b64encode_mem {bs : List Nat} (hb : ∀ b ∈ bs, b < 256) :
    ∀ c ∈ b64encode bs, isB64Char c = true ∨ c = 61 := by
  induction bs using b64encode.induct with
  | case1 b1 b2 b3 rest ih =>
    have h1 : b1 < 256 := hb b1 (by simp)
    have h2 : b2 < 256 := hb b2 (by simp)
    have h3 : b3 < 256 := hb b3 (by simp)
    intro c hc
    simp only [b64encode, List.mem_cons] at hc
    rcases hc with h | h | h | h | h
    · exact Or.inl (h ▸ isB64Char_b64Char (by omega))
    · exact Or.inl (h ▸ isB64Char_b64Char (by omega))
    · exact Or.inl (h ▸ isB64Char_b64Char (by omega))
    · exact Or.inl (h ▸ isB64Char_b64Char (Nat.lt_of_lt_of_le (Nat.mod_lt _ (by omega)) (by omega)))
    · exact ih (fun b hbm => hb b (by simp [hbm])) c h
  | case2 b1 b2 =>
    have h1 : b1 < 256 := hb b1 (by simp)
    have h2 : b2 < 256 := hb b2 (by simp)
    intro c hc
    simp only [b64encode, List.mem_cons, List.not_mem_nil, or_false] at hc
    rcases hc with h | h | h | h
    · exact Or.inl (h ▸ isB64Char_b64Char (by omega))
    · exact Or.inl (h ▸ isB64Char_b64Char (by omega))
    · exact Or.inl (h ▸ isB64Char_b64Char (by omega))
    · exact Or.inr h
  | case3 b1 =>
    have h1 : b1 < 256 := hb b1 (by simp)
    intro c hc
    simp only [b64encode, List.mem_cons, List.not_mem_nil, or_false] at hc
    rcases hc with h | h | h | h
    · exact Or.inl (h ▸ isB64Char_b64Char (by omega))
    · exact Or.inl (h ▸ isB64Char_b64Char (by omega))
    · exact Or.inr h
    · exact Or.inr h
  | case4 => intro c hc; simp [b64encode] at hc

theorem b64encode_length (bs : List Nat) :
    (b64encode bs).length = 4 * ((bs.length + 2) / 3) := by
  induction bs using b64encode.induct with
  | case1 b1 b2 b3 rest ih => simp [b64encode, ih]; omega
  | case2 b1 b2 => simp [b64encode]
  | case3 b1 => simp [b64encode]
  | case4 => simp [b64encode]

theorem b64decodeGroups_encode {bs : List Nat} (hb : ∀ b ∈ bs, b < 256) :
    b64decodeGroups (b64encode bs) = some bs := by
  induction bs using b64encode.induct with
  | case1 b1 b2 b3 rest ih =>
    have h1 : b1 < 256 := hb b1 (by simp)
    have h2 : b2 < 256 := hb b2 (by simp)
    have h3 : b3 < 256 := hb b3 (by simp)
    have d1 : b1 / 4 < 64 := by omega
    have d2 : (b1 % 4) * 16 + b2 / 16 < 64 := by omega
    have d3 : (b2 % 16) * 4 + b3 / 64 < 64 := by omega
    have d4 : b3 % 64 < 64 := Nat.mod_lt _ (by omega)
    rw [b64encode]
    rw [b64decodeGroups]
    rw [b64CharInv_b64Char d1, b64CharInv_b64Char d2]
    simp only [Option.bind_eq_bind, Option.some_bind, b64Char_ne_pad d4, if_false,
      b64CharInv_b64Char d3, b64CharInv_b64Char d4,
      ih (fun b hbm => hb b (by simp [hbm]))]
    simp only [Option.some.injEq, List.cons.injEq, and_true, true_and]
    omega
  | case2 b1 b2 =>
    have h1 : b1 < 256 := hb b1 (by simp)
    have h2 : b2 < 256 := hb b2 (by simp)
    have d1 : b1 / 4 < 64 := by omega
    have d2 : (b1 % 4) * 16 + b2 / 16 < 64 := by omega
    have d3 : (b2 % 16) * 4 < 64 := by omega
    rw [b64encode, b64decodeGroups]
    rw [b64CharInv_b64Char d1, b64CharInv_b64Char d2]
    simp only [Option.bind_eq_bind, Option.some_bind, if_pos rfl, ne_eq,
      not_true_eq_false, reduceIte, b64Char_ne_pad d3, b64CharInv_b64Char d3]
    simp only [Option.some.injEq, List.cons.injEq, and_true, true_and]
    omega
  | case3 b1 =>
    have h1 : b1 < 256 := hb b1 (by simp)
    have d1 : b1 / 4 < 64 := by omega
    have d2 : (b1 % 4) * 16 < 64 := by omega
    rw [b64encode, b64decodeGroups]
    rw [b64CharInv_b64Char d1, b64CharInv_b64Char d2]
    simp only [Option.bind_eq_bind, Option.some_bind, if_pos rfl, ne_eq,
      not_true_eq_false, reduceIte]
    simp only [Option.some.injEq, List.cons.injEq, and_true, true_and]
    omega
  | case4 => rfl

/-- base64 round trip on byte strings, as used throughout the decoder. -/
theorem b64decode_b64encode {bs : List Nat} (hb : ∀ b ∈ bs, b < 256) :
    b64decode (b64encode bs) = some bs := by
  unfold b64decode
  have hfilter : (b64encode bs).filter (fun c => isB64Char c || c == 61) = b64encode bs := by
    apply List.filter_eq_self.mpr
    intro c hc
    rcases b64encode_mem hb c hc with h | h <;> simp [h]
  rw [hfilter, b64encode_length]
  simp only [Nat.mul_mod_right, if_pos rfl]
  exact b64decodeGroups_encode hb

/-- base64 output contains no Python whitespace, so `str.strip` leaves
it (and concatenations of it) unchanged. -/
theorem b64encode_not_space {bs : List Nat} (hb : ∀ b ∈ bs, b < 256) :
    ∀ c ∈ b64encode bs, isPySpace c = false := by
  intro c hc
  rcases b64encode_mem hb c hc with h | h
  · have H : ∀ c : Nat, isB64Char c = true → isPySpace c = false := by
      intro c hcc
      by_contra hsp
      have hsp' : isPySpace c = true := by revert hsp; cases isPySpace c <;> simp
      revert hcc hsp'
      unfold isB64Char b64CharInv isPySpace
      split_ifs <;> simp_all <;> omega
    exact H c h
  · rw [h]; exact pad_not_space

theorem dropWhile_eq_self_of_none {p : Nat → Bool} {xs : List Nat}
    (h : ∀ c ∈ xs, p c = false) : xs.dropWhile p = xs := by
  cases xs with
  | nil => rfl
  | cons a l => simp [List.dropWhile, h a (by simp)]

theorem pyStrip_eq_self {xs : List Nat} (h : ∀ c ∈ xs, isPySpace c = false) :
    pyStrip xs = xs := by
  unfold pyStrip
  rw [dropWhile_eq_self_of_none h,
    dropWhile_eq_self_of_none (fun c hc => h c (List.mem_reverse.mp hc)),
    List.reverse_reverse]

theorem length_natToBytesLE (w v : Nat) : (natToBytesLE w v).length = w := by
  induction w generalizing v with
  | zero => rfl
  | succ w ih => simp [natToBytesLE, ih]

theorem mem_natToBytesLE {w v : Nat} : ∀ b ∈ natToBytesLE w v, b < 256 := by
  induction w generalizing v with
  | zero => simp [natToBytesLE]
  | succ w ih =>
    intro b hb
    simp only [natToBytesLE, List.mem_cons] at hb
    rcases hb with h | h
    · omega
    · exact ih b h

theorem natFromBytesLE_natToBytesLE (w v : Nat) :
    natFromBytesLE (natToBytesLE w v) = v % 256 ^ w := by
  induction w generalizing v with
  | zero => simp [natToBytesLE, natFromBytesLE, Nat.mod_one]
  | succ w ih =>
    rw [natToBytesLE, natFromBytesLE, ih]
    rw [pow_succ', Nat.mod_mul]
    simp [Nat.mod_mod_of_dvd]

theorem length_natToBytes (bo : ByteOrder) (w v : Nat) : (natToBytes bo w v).length = w := by
  cases bo <;> simp [natToBytes, length_natToBytesLE]

theorem mem_natToBytes {bo : ByteOrder} {w v : Nat} : ∀ b ∈ natToBytes bo w v, b < 256 := by
  cases bo with
  | little => exact mem_natToBytesLE
  | big => intro b hb; exact mem_natToBytesLE b (List.mem_reverse.mp hb)

theorem natFromBytes_natToBytes (bo : ByteOrder) (w v : Nat) :
    natFromBytes bo (natToBytes bo w v) = v % 256 ^ w := by
  cases bo with
  | little => exact natFromBytesLE_natToBytesLE w v
  | big =>
    simp only [natToBytes, natFromBytes, List.reverse_reverse]
    exact natFromBytesLE_natToBytesLE w v

theorem length_structPackNat (boS code : String) (v : Nat) :
    (structPackNat boS code v).length = calcsize1 code :=
  length_natToBytes _ _ _

theorem mem_structPackNat {boS code : String} {v : Nat} :
    ∀ b ∈ structPackNat boS code v, b < 256 := mem_natToBytes

theorem natFromBytes_structPackNat (boS code : String) (v : Nat) :
    natFromBytes (boOf boS) (structPackNat boS code v) = v % 256 ^ calcsize1 code :=
  natFromBytes_natToBytes _ _ _

/-- Round trip: `unpack_from` at offset 0 undoes `pack` for an in-range value of an
integer code. -/
theorem structUnpackFrom_structPackNat {boS code : String} {v : Nat}
    (hw : 0 < calcsize1 code) (hv : v < 256 ^ calcsize1 code)
    (hs : isSignedCode code = true → 2 * v < 256 ^ calcsize1 code) :
    structUnpackFrom boS code (structPackNat boS code v) 0 = some (v : Int) := by
  unfold structUnpackFrom
  rw [if_neg (by omega)]
  rw [if_pos (by simp [length_structPackNat])]
  have htake : ((structPackNat boS code v).drop (Int.toNat 0)).take (calcsize1 code) =
      structPackNat boS code v := by
    rw [Int.toNat_zero, List.drop_zero]
    conv_lhs => rw [← length_structPackNat boS code v]
    exact List.take_length _
  rw [htake, natFromBytes_structPackNat, Nat.mod_eq_of_lt hv]
  unfold toSignedInt
  split_ifs with h
  · rcases h with ⟨h1, h2⟩
    have := hs h1
    omega
  · rfl

theorem length_rawBytesOf (boS code : String) (A : List Nat) :
    (rawBytesOf boS code A).length = A.length * calcsize1 code := by
  induction A with
  | nil => simp [rawBytesOf]
  | cons a rest ih =>
    simp only [rawBytesOf, List.map_cons, List.flatten_cons, List.length_append,
      length_structPackNat, List.length_cons] at *
    rw [ih]; ring

theorem mem_rawBytesOf {boS code : String} {A : List Nat} :
    ∀ b ∈ rawBytesOf boS code A, b < 256 := by
  intro b hb
  simp only [rawBytesOf, List.mem_flatten, List.mem_map] at hb
  rcases hb with ⟨l, ⟨a, _, rfl⟩, hbl⟩
  exact mem_structPackNat b hbl

/-- Reading back `A.length` elements from the serialised bytes recovers
the bit patterns. -/
theorem readElems_rawBytesOf {boS code : String} {A : List Nat} {bo : ByteOrder}
    (hbo : bo = boOf boS)
    (hA : ∀ a ∈ A, a < 256 ^ calcsize1 code) :
    readElems bo (calcsize1 code) (rawBytesOf boS code A) A.length = A := by
  induction A with
  | nil => simp [rawBytesOf, readElems]
  | cons a rest ih =>
    have ha : a < 256 ^ calcsize1 code := hA a (by simp)
    subst hbo
    simp only [rawBytesOf, List.map_cons, List.flatten_cons, List.length_cons, readElems]
    have htake : (structPackNat boS code a ++ (List.map (structPackNat boS code) rest).flatten).take
        (calcsize1 code) = structPackNat boS code a := by
      conv_lhs => rw [← length_structPackNat boS code a]
      exact List.take_left _ _
    have hdrop : (structPackNat boS code a ++ (List.map (structPackNat boS code) rest).flatten).drop
        (calcsize1 code) = (List.map (structPackNat boS code) rest).flatten := by
      conv_lhs => rw [← length_structPackNat boS code a]
      exact List.drop_left _ _
    rw [htake, hdrop, natFromBytes_structPackNat, Nat.mod_eq_of_lt ha]
    have ihr := ih (fun x hx => hA x (by simp [hx]))
    simp only [rawBytesOf] at ihr
    rw [ihr]

/-- Round trip: `np.fromstring` in binary mode with an exact element count undoes
serialisation. -/
theorem npFromstringBinary_rawBytesOf {boS code : String} {A : List Nat}
    (hes : 0 < calcsize1 code)
    (hA : ∀ a ∈ A, a < 256 ^ calcsize1 code) :
    npFromstringBinary (boOf boS) (calcsize1 code) (rawBytesOf boS code A)
      (A.length : Int) = some A := by
  unfold npFromstringBinary
  rw [if_neg (by omega), if_neg (by simp)]
  rw [if_pos (by simp [length_rawBytesOf, Int.toNat_natCast])]
  simp only [Int.toNat_natCast]
  rw [readElems_rawBytesOf rfl hA]

/-- Single-byte elements read back as the raw byte list, modulo 256. -/
theorem readElems_one (bo : ByteOrder) (bs : List Nat) (k : Nat) (hk : k ≤ bs.length) :
    readElems bo 1 bs k = (bs.take k).map (fun b => b % 256) := by
  induction k generalizing bs with
  | zero => simp [readElems]
  | succ k ih =>
    cases bs with
    | nil => simp at hk
    | cons b rest =>
      simp only [readElems, List.take_succ_cons, List.map_cons, List.drop_succ_cons,
        List.take_zero, List.drop_zero]
      have hh : natFromBytes bo [b] = b % 256 := by
        cases bo <;> simp [natFromBytes, natFromBytesLE]
      rw [hh, ih rest (by simpa using hk)]

theorem ofOption_some (e : Err) (a : α) : ofOption e (some a) = .ok a := rfl

theorem ofOption_none (e : Err) : ofOption e (none : Option α) = .error e := rfl

theorem exceptBind_ok (a : α) (f : α → Except Err β) :
    (Except.ok a : Except Err α) >>= f = f a := rfl

theorem exceptBind_error (e : Err) (f : α → Except Err β) :
    (Except.error e : Except Err α) >>= f = Except.error e := rfl

theorem exceptPure (a : α) : (pure a : Except Err α) = Except.ok a := rfl

theorem exceptThrow (e : Err) : (throw e : Except Err α) = Except.error e := rfl

/-- Every `struct` code in the `buffers` table has positive size. -/
theorem calcsize1_pos_of_buffers {dt code : String} (h : alookup buffers dt = some code) :
    0 < calcsize1 code := by
  simp only [buffers, alookup] at h
  split_ifs at h <;> simp only [Option.some.injEq] at h <;> subst h <;> decide

theorem listChunks_flatten (xs : List Nat) (c : Nat) (hc : c ≠ 0) :
    (listChunks xs c).flatten = xs := by
  induction xs, c using listChunks.induct with
  | case1 xs c h =>
    rcases h with h | h
    · exact absurd h hc
    · subst h; rw [listChunks, dif_pos (Or.inr rfl)]; rfl
  | case2 xs c h ih =>
    rw [listChunks, dif_neg h]
    simp only [List.flatten_cons, ih hc, List.take_append_drop]

theorem listChunks_length (xs : List Nat) (c : Nat) (hc : c ≠ 0)
    (hdvd : c ∣ xs.length) : (listChunks xs c).length = xs.length / c := by
  induction xs, c using listChunks.induct with
  | case1 xs c h =>
    rcases h with h | h
    · exact absurd h hc
    · subst h; rw [listChunks, dif_pos (Or.inr rfl)]; simp
  | case2 xs c h ih =>
    have h' := h
    rw [not_or] at h'
    have hxs : 0 < xs.length := List.length_pos.mpr h'.2
    obtain ⟨k, hk⟩ := hdvd
    have hknz : k ≠ 0 := by rintro rfl; omega
    have hsub : xs.length - c = c * (k - 1) := by
      cases k with
      | zero => omega
      | succ k => rw [hk, Nat.mul_succ, Nat.succ_sub_one, Nat.add_sub_cancel]
    have hdvd' : c ∣ (xs.drop c).length := by
      rw [List.length_drop, hsub]
      exact Dvd.intro _ rfl
    rw [listChunks, dif_neg h, List.length_cons, ih hc hdvd', List.length_drop, hsub, hk,
      Nat.mul_div_cancel_left _ (Nat.pos_of_ne_zero hc),
      Nat.mul_div_cancel_left _ (Nat.pos_of_ne_zero hc)]
    omega

theorem listChunks_rows (xs : List Nat) (c : Nat) (hc : c ≠ 0)
    (hdvd : c ∣ xs.length) : ∀ r ∈ listChunks xs c, r.length = c := by
  induction xs, c using listChunks.induct with
  | case1 xs c h =>
    rcases h with h | h
    · exact absurd h hc
    · subst h; rw [listChunks, dif_pos (Or.inr rfl)]; simp
  | case2 xs c h ih =>
    have h' := h
    rw [not_or] at h'
    have hxs : 0 < xs.length := List.length_pos.mpr h'.2
    have hcle : c ≤ xs.length := Nat.le_of_dvd hxs hdvd
    obtain ⟨k, hk⟩ := hdvd
    have hknz : k ≠ 0 := by rintro rfl; omega
    have hsub : xs.length - c = c * (k - 1) := by
      cases k with
      | zero => omega
      | succ k => rw [hk, Nat.mul_succ, Nat.succ_sub_one, Nat.add_sub_cancel]
    have hdvd' : c ∣ (xs.drop c).length := by
      rw [List.length_drop, hsub]
      exact Dvd.intro _ rfl
    intro r hr
    rw [listChunks, dif_neg h] at hr
    rcases List.mem_cons.mp hr with rfl | hr
    · rw [List.length_take]
      omega
    · exact ih hc hdvd' r hr

/-! ## Claim theorems -/

/-- The concrete combined-layout document of claim C1: a one-element
`UInt8` array `[7]`, LittleEndian, default `UInt32` header, header and
content base64-encoded together (version "1.0" layout). -/
def c1Input : List Nat := combinedEncode "<" "I" "B" [7]

/-- C1: the spec claims the combined-header binary round trip reproduces
the array; the code instead reads the function-local name `array_data`
before assignment in the combined branch of `handle_data_array`
(`data_content = base64.b64decode(array_data)` at line 114, where only
`self.array_data` and `input_data` exist), so every combined-layout
binary decode raises `UnboundLocalError` instead of producing the
array.  Evaluated here at the concrete C1 document. -/
theorem c1_combined_binary_unbound_local :
    VTKTreeBuilder.handle_data_array (mkBinState false "<" "I" "UInt8" c1Input) =
      .error (.unboundLocal "array_data") := by rfl

/-- Claim C2's concrete document with a raw appended-data section, and a
two-chunk split whose boundary falls inside the start marker
`<AppendedData encoding="raw">_` (between `>` and `_`). -/
def c2Doc : List Nat :=
  strBytes "<VTKFile><AppendedData encoding=\"raw\">_ABC</AppendedData></VTKFile>"

def c2Chunk1 : List Nat := strBytes "<VTKFile><AppendedData encoding=\"raw\">"

def c2Chunk2 : List Nat := strBytes "_ABC</AppendedData></VTKFile>"

/-- C2: splitting the document inside the start marker defeats the raw
section detection — `feed` searches `raw_start_pattern` only in each
newly arrived chunk, never in an accumulated buffer, so the chunked feed
forwards the raw bytes to the tokenizer unpatched while the single-shot
feed forwards them base64-substituted. -/
theorem c2_chunk_split_diverges :
    feedForward [c2Chunk1, c2Chunk2] ≠ feedForward [c2Doc] := by decide

/-- The concrete appended blob of claim C3: a BigEndian document, one
`UInt16` array whose raw bytes are `[1, 2]` behind a 4-byte length
header. -/
def c3Blob : List Nat := structPackNat ">" "I" 2 ++ [1, 2]

/-- C3: the resolver reads the length header with the document's byte
order but builds the element dtype without a byte-order prefix
(`cbuf = self.buffers[dtype]`), so the elements are read in the
machine's native (little-endian) order: the big-endian bytes `[1, 2]`
come back as the pattern `513 = 0x0201` where the document-endian read
required by the spec (`resolveRegistrationSpec`) yields `258 = 0x0102`. -/
theorem c3_appended_native_endianness :
    VTKTreeBuilder.resolveRegistration ">" "I" c3Blob 0 "UInt16" = .ok [513] ∧
      VTKTreeBuilder.resolveRegistrationSpec ">" "I" c3Blob 0 "UInt16" = .ok [258] ∧
      (513 : Nat) ≠ 258 := by
  refine ⟨by rfl, by rfl, by decide⟩

/-- C6: the reshape step of `handle_data_array`.  When the component
count divides the flat length the payload becomes rows of that width in
row-major order (length-preserving flatten, `L / C` rows of `C`
elements); otherwise `reshape(-1, C)` raises numpy's `ValueError`, the
spec's `ShapeError`. -/
theorem c6_reshape_invariant (xs : List Nat) (C : Nat) (hC : 1 < C) :
    (C ∣ xs.length →
      npReshape xs C = some (listChunks xs C) ∧
      (listChunks xs C).length = xs.length / C ∧
      (∀ r ∈ listChunks xs C, r.length = C) ∧
      (listChunks xs C).flatten = xs) ∧
    (¬ C ∣ xs.length →
      ofOption Err.reshapeError (npReshape xs C) = Except.error Err.reshapeError) := by
  have hC0 : C ≠ 0 := by omega
  constructor
  · intro hdvd
    refine ⟨?_, listChunks_length xs C hC0 hdvd, listChunks_rows xs C hC0 hdvd,
      listChunks_flatten xs C hC0⟩
    have hmod : xs.length % C = 0 := by
      obtain ⟨k, hk⟩ := hdvd
      rw [hk]
      exact Nat.mul_mod_right C k
    unfold npReshape
    rw [if_pos ⟨hC0, hmod⟩]
  · intro hndvd
    unfold npReshape
    rw [if_neg ?_]
    · rfl
    · rintro ⟨-, hmod⟩
      exact hndvd (Nat.dvd_of_mod_eq_zero hmod)

theorem c6_witness :
    npReshape [10, 20, 30, 40, 50, 60] 2 = some (listChunks [10, 20, 30, 40, 50, 60] 2) ∧
      ofOption Err.reshapeError (npReshape [10, 20, 30] 2) = Except.error Err.reshapeError :=
  ⟨((c6_reshape_invariant [10, 20, 30, 40, 50, 60] 2 (by decide)).1 (by decide)).1,
   (c6_reshape_invariant [10, 20, 30] 2 (by decide)).2 (by decide)⟩

/-- C7: resolving an appended-data registration fails when either the
header read (`struct.unpack_from`, raising `struct.error`) or the
element read (`np.fromstring` with an explicit count, raising numpy's
`ValueError`) would run past the end of the decoded blob; the two raise
sites are the spec's `OffsetError`. -/
theorem c7_offset_past_end (boS ht : String) (raw : List Nat) (offset : Nat)
    (dt code : String) (hdt : alookup buffers dt = some code) :
    (raw.length < offset + calcsize1 ht →
      VTKTreeBuilder.resolveRegistration boS ht raw (offset : Int) dt =
        .error .structError) ∧
    (∀ n : Int, structUnpackFrom boS ht raw (offset : Int) = some n → 0 ≤ n →
      raw.length - (offset + calcsize1 ht) <
          (n.fdiv (calcsize1 code : Int)).toNat * calcsize1 code →
      VTKTreeBuilder.resolveRegistration boS ht raw (offset : Int) dt =
        .error .npValueError) := by
  constructor
  · intro hshort
    have hnone : structUnpackFrom boS ht raw (offset : Int) = none := by
      unfold structUnpackFrom
      rw [if_neg (by omega), if_neg (by rw [Int.toNat_natCast]; omega)]
    unfold VTKTreeBuilder.resolveRegistration
    rw [hnone]
    rfl
  · intro n hn hn0 hlt
    have hes : 0 < calcsize1 code := calcsize1_pos_of_buffers hdt
    unfold VTKTreeBuilder.resolveRegistration
    rw [hn, hdt]
    simp only [ofOption_some, exceptBind_ok]
    have htn : ((offset : Int) + (calcsize1 ht : Nat)).toNat = offset + calcsize1 ht := by
      omega
    rw [htn]
    have hcnt : 0 ≤ n.fdiv (calcsize1 code : Int) :=
      Int.fdiv_nonneg hn0 (by positivity)
    have hfnone : npFromstringBinary nativeByteOrder (calcsize1 code)
        (raw.drop (offset + calcsize1 ht)) (n.fdiv (calcsize1 code : Int)) = none := by
      unfold npFromstringBinary
      rw [if_neg (by omega), if_neg (by omega), if_neg (by rw [List.length_drop]; omega)]
    rw [hfnone]
    rfl

theorem c7_witness :
    VTKTreeBuilder.resolveRegistration "<" "I" [1, 2, 3] ((4 : Nat) : Int) "UInt8" =
      .error .structError :=
  (c7_offset_past_end "<" "I" [1, 2, 3] 4 "UInt8" "B" (by rfl)).1 (by decide)

/-- Does this `start` outcome abort with one of the two `ValueError`s of
the `VTKFile` branch (the spec's `ConfigurationError`)? -/
def failsWithConfigError : Except Err BState → Bool
  | .error .missingVersion => true
  | .error (.unknownByteorder _) => true
  | _ => false

/-- Does this `start` outcome abort with the `DataArray` format
`ValueError` (the spec's `FormatError`)? -/
def failsWithFormatError : Except Err BState → Bool
  | .error (.badFormat _) => true
  | _ => false

/-- The `byteorders` table recognises exactly `LittleEndian` and
`BigEndian`. -/
theorem byteorders_none_iff (v : String) :
    alookup byteorders v = none ↔ v ≠ "LittleEndian" ∧ v ≠ "BigEndian" := by
  simp only [byteorders, alookup]
  split_ifs with h1 h2 <;> simp_all

/-- C8: on a `VTKFile` start event a `ConfigurationError` is raised
exactly when `version` is absent or `byte_order` carries a value other
than `LittleEndian`/`BigEndian` (an *absent* `byte_order` instead
escapes as a bare `KeyError` out of the message-formatting handler, and
an unknown `header_type` is silently defaulted — neither is a
`ConfigurationError`); and a present `version` selects the split header
layout exactly for the value `"0.1"`. -/
theorem c8_vtkfile_start (attrib : List (String × String)) (st : BState) :
    (failsWithConfigError (VTKTreeBuilder.start "VTKFile" attrib st) = true ↔
      alookup attrib "version" = none ∨
        (∃ v, alookup attrib "byte_order" = some v ∧
          v ≠ "LittleEndian" ∧ v ≠ "BigEndian")) ∧
    (∀ ver st', alookup attrib "version" = some ver →
      VTKTreeBuilder.start "VTKFile" attrib st = .ok st' →
      st'.split_header = some (ver == "0.1")) := by
  constructor
  · rcases hver : alookup attrib "version" with _ | ver
    · simp [VTKTreeBuilder.start, hver, failsWithConfigError]
    · rcases hb : alookup attrib "byte_order" with _ | bo
      · simp [VTKTreeBuilder.start, hver, hb, failsWithConfigError]
      · rcases hbs : alookup byteorders bo with _ | boS
        · simp [VTKTreeBuilder.start, hver, hb, hbs, failsWithConfigError]
          exact (byteorders_none_iff bo).mp hbs
        · have hne : ¬(bo ≠ "LittleEndian" ∧ bo ≠ "BigEndian") := by
            intro hcon
            rw [← byteorders_none_iff bo, hbs] at hcon
            exact Option.noConfusion hcon
          simp [VTKTreeBuilder.start, hver, hb, hbs, failsWithConfigError]
          exact fun hL => not_not.mp (not_and.mp hne hL)
  · intro ver st' hver hok
    rcases hb : alookup attrib "byte_order" with _ | bo
    · simp [VTKTreeBuilder.start, hver, hb] at hok
    · rcases hbs : alookup byteorders bo with _ | boS
      · simp [VTKTreeBuilder.start, hver, hb, hbs] at hok
      · simp [VTKTreeBuilder.start, hver, hb, hbs] at hok
        subst hok
        rfl

theorem c8_witness :
    (failsWithConfigError
        (VTKTreeBuilder.start "VTKFile"
          [("version", "1.0"), ("byte_order", "Middle")] BState.initial) = true) ∧
      (∀ st', VTKTreeBuilder.start "VTKFile"
          [("version", "0.1"), ("byte_order", "LittleEndian")] BState.initial = .ok st' →
        st'.split_header = some true) :=
  ⟨(c8_vtkfile_start [("version", "1.0"), ("byte_order", "Middle")] BState.initial).1.mpr
      (Or.inr ⟨"Middle", by decide⟩),
   fun st' hok =>
     (c8_vtkfile_start [("version", "0.1"), ("byte_order", "LittleEndian")]
         BState.initial).2 "0.1" st' (by decide) hok⟩

/-- C9: on a `DataArray` start event the format `ValueError` (the
spec's `FormatError`) is raised exactly when the `format` attribute is
present with a value outside {ascii, binary, appended}; an absent
`format` raises a bare `KeyError`, and the attribute errors of an
appended registration (`offset`/`type`) are likewise not `FormatError`s. -/
theorem c9_dataarray_format (attrib : List (String × String)) (st : BState) :
    failsWithFormatError (VTKTreeBuilder.start "DataArray" attrib st) = true ↔
      ∃ v, alookup attrib "format" = some v ∧
        v ≠ "ascii" ∧ v ≠ "binary" ∧ v ≠ "appended" := by
  rcases hf : alookup attrib "format" with _ | fmt
  · simp [VTKTreeBuilder.start, hf, failsWithFormatError]
  · by_cases hap : fmt = "appended"
    · subst hap
      rcases ho : alookup attrib "offset" with _ | offS
      · simp [VTKTreeBuilder.start, hf, ho, failsWithFormatError]
      · rcases hoi : pyInt offS with _ | off
        · simp [VTKTreeBuilder.start, hf, ho, hoi, failsWithFormatError]
        · rcases hty : alookup attrib "type" with _ | ty <;>
            simp [VTKTreeBuilder.start, hf, ho, hoi, hty, failsWithFormatError]
    · by_cases hgood : fmt = "binary" ∨ fmt = "ascii"
      · rcases hgood with rfl | rfl <;>
          simp [VTKTreeBuilder.start, hf, hap, failsWithFormatError]
      · rw [not_or] at hgood
        simp [VTKTreeBuilder.start, hf, hap, hgood.1, hgood.2, failsWithFormatError]

theorem c9_witness :
    failsWithFormatError
      (VTKTreeBuilder.start "DataArray" [("type", "UInt8"), ("format", "zip")]
        BState.initial) = true :=
  (c9_dataarray_format [("type", "UInt8"), ("format", "zip")] BState.initial).mpr
    ⟨"zip", by decide⟩

/-- Drop a key from an attribute dict. -/
def eraseKey (xs : List (String × String)) (k : String) : List (String × String) :=
  xs.filter (fun p => p.1 ≠ k)

theorem alookup_eraseKey_self (xs : List (String × String)) (k : String) :
    alookup (eraseKey xs k) k = none := by
  induction xs with
  | nil => rfl
  | cons p rest ih =>
    by_cases h : p.1 = k
    · simpa [eraseKey, h] using ih
    · simpa [eraseKey, alookup, h, Ne.symm h] using ih

theorem alookup_eraseKey_other (xs : List (String × String)) (k k' : String)
    (h : k' ≠ k) : alookup (eraseKey xs k) k' = alookup xs k' := by
  induction xs with
  | nil => rfl
  | cons p rest ih =>
    by_cases hp : p.1 = k
    · rw [eraseKey, List.filter_cons_of_neg (by simp [hp])]
      rw [alookup, if_neg (hp ▸ h)]
      exact ih
    · rw [eraseKey, List.filter_cons_of_pos (by simp [hp])]
      rw [alookup, alookup]
      split_ifs with he
      · rfl
      · exact ih

/-- C10: an unrecognised `header_type` name falls into the same
`except KeyError` default as an absent attribute — the decoder raises
nothing and uses the `"I"` (unsigned 32-bit) header width, with exactly
the same decode parameters and error behaviour as if the attribute were
removed. -/
theorem c10_header_type_fallback (attrib : List (String × String)) (st : BState)
    (v : String) (h1 : alookup attrib "header_type" = some v)
    (h2 : alookup buffers v = none) :
    ((VTKTreeBuilder.start "VTKFile" attrib st).map
        (fun s => (s.split_header, s.byteorder, s.header_type)) =
      (VTKTreeBuilder.start "VTKFile" (eraseKey attrib "header_type") st).map
        (fun s => (s.split_header, s.byteorder, s.header_type))) ∧
    (∀ st', VTKTreeBuilder.start "VTKFile" attrib st = .ok st' →
      st'.header_type = some "I") := by
  have hver : alookup (eraseKey attrib "header_type") "version" = alookup attrib "version" :=
    alookup_eraseKey_other _ _ _ (by decide)
  have hb : alookup (eraseKey attrib "header_type") "byte_order" = alookup attrib "byte_order" :=
    alookup_eraseKey_other _ _ _ (by decide)
  have hht : alookup (eraseKey attrib "header_type") "header_type" = none :=
    alookup_eraseKey_self _ _
  constructor
  · rcases hv : alookup attrib "version" with _ | ver
    · simp [VTKTreeBuilder.start, hv, hver]
    · rcases hbo : alookup attrib "byte_order" with _ | bo
      · simp [VTKTreeBuilder.start, hv, hver, hbo, hb]
      · rcases hbs : alookup byteorders bo with _ | boS
        · simp [VTKTreeBuilder.start, hv, hver, hbo, hb, hbs]
        · simp [VTKTreeBuilder.start, hv, hver, hbo, hb, hbs, h1, h2, hht]
          rfl
  · intro st' hok
    rcases hv : alookup attrib "version" with _ | ver
    · simp [VTKTreeBuilder.start, hv] at hok
    · rcases hbo : alookup attrib "byte_order" with _ | bo
      · simp [VTKTreeBuilder.start, hv, hbo] at hok
      · rcases hbs : alookup byteorders bo with _ | boS
        · simp [VTKTreeBuilder.start, hv, hbo, hbs] at hok
        · simp [VTKTreeBuilder.start, hv, hbo, hbs, h1, h2] at hok
          subst hok
          rfl

/-- The ordered list of payloads the decoder assigned to element `eid`. -/
def writesTo (st : BState) (eid : Nat) : List Payload :=
  (st.writes.filter (fun w => w.1 == eid)).map (fun w => w.2)

/-- The callback trace of a document holding one appended `DataArray`
(element 1) at offset 0 and an `AppendedData` blob carrying `content`
behind a 4-byte length header: the builder events a parse of
`<VTKFile version="1.0" byte_order="LittleEndian">` containing
`<DataArray type="UInt8" format="appended" offset="0"/>` and the patched
`<AppendedData encoding="raw">` element delivers. -/
def c4Trace (content : List Nat) : List Event :=
  [ .start "VTKFile" [("version", "1.0"), ("byte_order", "LittleEndian")],
    .start "DataArray" [("type", "UInt8"), ("format", "appended"), ("offset", "0")],
    .endEv "DataArray",
    .start "AppendedData" [("encoding", "raw")],
    .data (b64encode (structPackNat "<" "I" content.length ++ content)),
    .endEv "AppendedData",
    .endEv "VTKFile" ]

/-- The builder state just before the `AppendedData` end event of
`c4Trace` (all earlier steps are concrete). -/
def c4St5 (content : List Nat) : BState :=
  { elems := [⟨"VTKFile", [("version", "1.0"), ("byte_order", "LittleEndian")]⟩,
              ⟨"DataArray", [("type", "UInt8"), ("format", "appended"), ("offset", "0")]⟩,
              ⟨"AppendedData", [("encoding", "raw")]⟩],
    elem := some 2,
    array_data := b64encode (structPackNat "<" "I" content.length ++ content),
    split_header := some false,
    byteorder := some "<",
    header_type := some "I",
    appended_data_arrays := [(0, "UInt8", 1)],
    writes := [(1, Payload.flat [])] }

/-- C4 counterexample: running the appended-data document shows the
appended `DataArray`'s payload slot written TWICE — `handle_data_array`
runs at the element's close (its format is not "binary", so the
text-mode `np.fromstring` branch parses the empty accumulated text and
assigns the empty array), and the Appended-Data Resolver then overwrites
it.  The claim's "the decode procedure does not write to that element's
payload slot; the payload is written exactly once" is false. -/
theorem c4_counterexample :
    (runTrace (c4Trace [77, 78])).map (fun st => writesTo st 1) =
      .ok [Payload.flat [], Payload.flat [77, 78]] := by rfl

/-- C4 as amended: at an appended `DataArray`'s close the decode
procedure writes the ascii-parse of the (empty) accumulated text — an
empty placeholder array — to the element's payload slot; the
Appended-Data Resolver later overwrites it with the decoded sub-array,
so the slot is written twice with the resolver's write last, and the
element's final payload is the resolver's correct value. -/
theorem c4_amended (content : List Nat) (hb : ∀ b ∈ content, b < 256)
    (hlen : content.length < 4294967296) :
    (runTrace (c4Trace content)).map (fun st => writesTo st 1) =
      .ok [Payload.flat [], Payload.flat content] := by
  have hblen : (structPackNat "<" "I" content.length).length = 4 :=
    length_structPackNat "<" "I" content.length
  have henc : b64decode (b64encode (structPackNat "<" "I" content.length ++ content)) =
      some (structPackNat "<" "I" content.length ++ content) := by
    apply b64decode_b64encode
    intro b hbm
    rcases List.mem_append.mp hbm with h | h
    · exact mem_structPackNat b h
    · exact hb b h
  have hunpack : structUnpackFrom "<" "I"
      (structPackNat "<" "I" content.length ++ content) 0 = some (content.length : Int) := by
    unfold structUnpackFrom
    rw [if_neg (by omega)]
    rw [if_pos (by simp [hblen, calcsize1])]
    have htake : ((structPackNat "<" "I" content.length ++ content).drop
        (Int.toNat 0)).take (calcsize1 "I") = structPackNat "<" "I" content.length := by
      rw [Int.toNat_zero, List.drop_zero]
      have h4 : calcsize1 "I" = (structPackNat "<" "I" content.length).length := hblen.symm
      rw [h4]
      exact List.take_left _ _
    rw [htake, natFromBytes_structPackNat]
    have hmod : content.length % 256 ^ calcsize1 "I" = content.length :=
      Nat.mod_eq_of_lt (by simpa [calcsize1] using hlen)
    rw [hmod]
    rfl
  have hres : VTKTreeBuilder.resolveRegistration "<" "I"
      (structPackNat "<" "I" content.length ++ content) 0 "UInt8" = .ok content := by
    unfold VTKTreeBuilder.resolveRegistration
    rw [hunpack]
    simp only [ofOption_some, exceptBind_ok]
    rw [show alookup buffers "UInt8" = some "B" from rfl]
    simp only [ofOption_some, exceptBind_ok]
    have hdrop : (structPackNat "<" "I" content.length ++ content).drop
        (((0 : Int) + (calcsize1 "I" : Nat)).toNat) = content := by
      have h4 : (((0 : Int) + (calcsize1 "I" : Nat)).toNat) =
          (structPackNat "<" "I" content.length).length := by
        rw [hblen]; rfl
      rw [h4]
      exact List.drop_left _ _
    rw [hdrop]
    rw [show ((calcsize1 "B" : Nat) : Int) = 1 from rfl, Int.fdiv_one]
    have hfs : npFromstringBinary nativeByteOrder (calcsize1 "B") content
        (content.length : Int) = some content := by
      unfold npFromstringBinary
      rw [if_neg (by decide), if_neg (by omega)]
      rw [if_pos (by simp [calcsize1, Int.toNat_natCast])]
      rw [Int.toNat_natCast]
      rw [show calcsize1 "B" = 1 from rfl,
        readElems_one nativeByteOrder content content.length (le_refl _), List.take_length]
      congr 1
      calc content.map (fun b => b % 256)
          = content.map id := List.map_congr_left (fun b hbm => Nat.mod_eq_of_lt (hb b hbm))
        _ = content := List.map_id content
    rw [hfs]
    rfl
  have hrun : runTrace (c4Trace content) =
      VTKTreeBuilder.endEvent "AppendedData" (c4St5 content) >>= fun s6 =>
        VTKTreeBuilder.endEvent "VTKFile" s6 >>= fun s7 => pure s7 := rfl
  have hh : VTKTreeBuilder.handle_appended_data (c4St5 content) =
      .ok { (c4St5 content) with
              writes := [(1, Payload.flat []), (1, Payload.flat content)] } := by
    unfold VTKTreeBuilder.handle_appended_data
    simp only [show (c4St5 content).array_data =
        b64encode (structPackNat "<" "I" content.length ++ content) from rfl,
      show (c4St5 content).byteorder = some "<" from rfl,
      show (c4St5 content).header_type = some "I" from rfl,
      show (c4St5 content).appended_data_arrays =
        [((0 : Int), "UInt8", (1 : Nat))] from rfl,
      henc, ofOption_some, exceptBind_ok, List.foldlM_cons, List.foldlM_nil, hres,
      exceptPure]
    rfl
  have h6 : VTKTreeBuilder.endEvent "AppendedData" (c4St5 content) =
      .ok { (c4St5 content) with
            array_data := [],
            writes := [(1, Payload.flat []), (1, Payload.flat content)] } := by
    unfold VTKTreeBuilder.endEvent
    rw [if_neg (by decide), if_pos rfl, hh]
    rfl
  rw [hrun, h6]
  rfl

theorem c4_amended_witness :
    (runTrace (c4Trace [9, 8, 7])).map (fun st => writesTo st 1) =
      .ok [Payload.flat [], Payload.flat [9, 8, 7]] :=
  c4_amended [9, 8, 7] (by decide) (by decide)

/-- C5: the split-header (version "0.1") binary round trip.  For every
numeric kind in the `buffers` table, every array of in-range bit
patterns of that kind, both byte orders, and every *integer* header
kind whose width can hold the byte length (float header kinds are
outside the modelled `struct` semantics), decoding the claim's split
encoding — header and content base64-encoded separately, the header's
character count measured by encoding a zero of the header width —
reproduces the array exactly as the element's payload. -/
theorem c5_split_roundtrip
    (tyName code : String) (hty : alookup buffers tyName = some code)
    (htName htCode : String) (hht : alookup buffers htName = some htCode)
    (hhtInt : htCode = "b" ∨ htCode = "B" ∨ htCode = "h" ∨ htCode = "H" ∨
      htCode = "i" ∨ htCode = "I" ∨ htCode = "q" ∨ htCode = "Q")
    (boName boS : String) (hbo : alookup byteorders boName = some boS)
    (A : List Nat) (hA : ∀ a ∈ A, a < 256 ^ calcsize1 code)
    (hfit : A.length * calcsize1 code < 256 ^ calcsize1 htCode)
    (hfitS : isSignedCode htCode = true →
      2 * (A.length * calcsize1 code) < 256 ^ calcsize1 htCode) :
    VTKTreeBuilder.handle_data_array
        (mkBinState true boS htCode tyName (splitEncode boS htCode code A)) =
      .ok { (mkBinState true boS htCode tyName (splitEncode boS htCode code A)) with
            writes := [(0, Payload.flat A)] } := by
  have hw : 0 < calcsize1 htCode := calcsize1_pos_of_buffers hht
  have hes : 0 < calcsize1 code := calcsize1_pos_of_buffers hty
  have hstrip : pyStrip (splitEncode boS htCode code A) = splitEncode boS htCode code A := by
    apply pyStrip_eq_self
    intro c hc
    rcases List.mem_append.mp hc with h | h
    · exact b64encode_not_space mem_structPackNat c h
    · exact b64encode_not_space mem_rawBytesOf c h
  have henclen : (b64encode (structPackNat boS htCode (A.length * calcsize1 code))).length =
      (b64encode (structPackNat boS htCode 0)).length := by
    rw [b64encode_length, b64encode_length, length_structPackNat, length_structPackNat]
  have htake : (splitEncode boS htCode code A).take
      (b64encode (structPackNat boS htCode 0)).length =
      b64encode (structPackNat boS htCode (A.length * calcsize1 code)) := by
    unfold splitEncode
    rw [← henclen]
    exact List.take_left _ _
  have hdrop : (splitEncode boS htCode code A).drop
      (b64encode (structPackNat boS htCode 0)).length =
      b64encode (rawBytesOf boS code A) := by
    unfold splitEncode
    rw [← henclen]
    exact List.drop_left _ _
  have hdec1 : b64decode (b64encode (structPackNat boS htCode (A.length * calcsize1 code))) =
      some (structPackNat boS htCode (A.length * calcsize1 code)) :=
    b64decode_b64encode mem_structPackNat
  have hdec2 : b64decode (b64encode (rawBytesOf boS code A)) =
      some (rawBytesOf boS code A) :=
    b64decode_b64encode mem_rawBytesOf
  have hupk : structUnpackFrom boS htCode
      (structPackNat boS htCode (A.length * calcsize1 code)) 0 =
      some ((A.length * calcsize1 code : Nat) : Int) :=
    structUnpackFrom_structPackNat hw hfit hfitS
  have hfd : ((A.length * calcsize1 code : Nat) : Int).fdiv ((calcsize1 code : Nat) : Int) =
      (A.length : Int) := by
    rw [← Int.ofNat_fdiv, Nat.mul_div_cancel _ hes]
  have hfs : npFromstringBinary (boOf boS) (calcsize1 code) (rawBytesOf boS code A)
      (A.length : Int) = some A := npFromstringBinary_rawBytesOf hes hA
  simp only [VTKTreeBuilder.handle_data_array,
    show (mkBinState true boS htCode tyName (splitEncode boS htCode code A)).elem =
      some 0 from rfl,
    show (mkBinState true boS htCode tyName (splitEncode boS htCode code A)).elems[0]? =
      some ⟨"DataArray", [("type", tyName), ("format", "binary")]⟩ from rfl,
    show (mkBinState true boS htCode tyName (splitEncode boS htCode code A)).byteorder =
      some boS from rfl,
    show (mkBinState true boS htCode tyName (splitEncode boS htCode code A)).header_type =
      some htCode from rfl,
    show (mkBinState true boS htCode tyName (splitEncode boS htCode code A)).split_header =
      some true from rfl,
    show (mkBinState true boS htCode tyName (splitEncode boS htCode code A)).array_data =
      splitEncode boS htCode code A from rfl,
    show alookup [("type", tyName), ("format", "binary")] "type" = some tyName from rfl,
    show alookup [("type", tyName), ("format", "binary")] "format" = some "binary" from rfl,
    show alookup [("type", tyName), ("format", "binary")] "NumberOfComponents" =
      (none : Option String) from rfl,
    hty, hstrip, htake, hdrop, hdec1, hdec2, hupk, hfd, hfs,
    ofOption_some, exceptBind_ok, exceptPure, reduceIte]
  rfl

theorem c5_witness :
    VTKTreeBuilder.handle_data_array
        (mkBinState true "<" "I" "UInt16" (splitEncode "<" "I" "H" [258, 7])) =
      .ok { (mkBinState true "<" "I" "UInt16" (splitEncode "<" "I" "H" [258, 7])) with
            writes := [(0, Payload.flat [258, 7])] } :=
  c5_split_roundtrip "UInt16" "H" (by decide) "UInt32" "I" (by decide)
    (by decide) "LittleEndian" "<" (by decide) [258, 7] (by decide) (by decide)
    (by decide)

theorem c10_witness :
    (VTKTreeBuilder.start "VTKFile"
        [("version", "1.0"), ("byte_order", "LittleEndian"), ("header_type", "Float128")]
        BState.initial).map (fun s => (s.split_header, s.byteorder, s.header_type)) =
      (VTKTreeBuilder.start "VTKFile"
        (eraseKey [("version", "1.0"), ("byte_order", "LittleEndian"),
          ("header_type", "Float128")] "header_type")
        BState.initial).map (fun s => (s.split_header, s.byteorder, s.header_type)) :=
  (c10_header_type_fallback
    [("version", "1.0"), ("byte_order", "LittleEndian"), ("header_type", "Float128")]
    BState.initial "Float128" (by decide) (by decide)).1

end VTK
